import Mathlib

/-
Verification of the prediction-outcome reconciliation and calibration-scoring
engine of the tennis-prediction repository.

The visible sources are the presentation layer: `src/src/app/page.tsx` (the
dashboard Home page), `src/unnamed/part_000` (the MetricsPage component) and
`src/unnamed/part_001` (a Windows launcher for the backend `src.api.app`).
The backend itself (Forecast Store, Ingestion Pipeline, Outcome Reconciler,
Scoring Engine) is not among the visible sources, so those components are
modelled from the specification's contracts (spec.md sections 3, 4, 6, 7);
each such definition carries a doc comment saying so.  Probabilities are
modelled as exact rationals, timestamps as naturals.
-/

set_option autoImplicit false

namespace TennisPrediction

/-- Modelled from the spec: the `Forecast` record of section 3 (DATA MODEL);
the backend package `src.api.app` is not among the visible sources.  One
record per match; `outcome` and `scored_at` are absent until the match is
reconciled. -/
structure Forecast where
  match_id : String
  sport_key : String
  player_a : String
  player_b : String
  p_home : ℚ
  created_at : ℕ
  outcome : Option Bool
  scored_at : Option ℕ
deriving DecidableEq, Repr

/-- Modelled from the spec: the Forecast Store (section 4.1) as a keyed
sequence of records, keyed by `match_id`. -/
abbrev Store := List Forecast

/-- Modelled from the spec: `get(match_id) -> Forecast | not_found`
(section 4.1); returns the first record with the given key. -/
def Store.get (s : Store) (mid : String) : Option Forecast :=
  s.find? (fun f => f.match_id == mid)

/-- Modelled from the spec: `put_if_absent(forecast) -> {inserted: bool}`
(section 4.1): inserts only if `match_id` is not already present. -/
def put_if_absent (s : Store) (f : Forecast) : Store × Bool :=
  if (s.get f.match_id).isSome then (s, false) else (s ++ [f], true)

/-- Modelled from the spec:
`attach_outcome(match_id, outcome: bool) -> {updated: bool}` (section 4.1):
sets `outcome` and `scored_at` only if currently absent; returns
`updated=false` if already set or if `match_id` is unknown. -/
def attach_outcome : Store → String → Bool → ℕ → Store × Bool
  | [], _, _, _ => ([], false)
  | f :: rest, mid, oc, now =>
    if f.match_id == mid then
      match f.outcome with
      | some _ => (f :: rest, false)
      | none => ({ f with outcome := some oc, scored_at := some now } :: rest, true)
    else
      let r := attach_outcome rest mid oc now
      (f :: r.1, r.2)

/-- Modelled from the spec: `list_unresolved()` (section 4.1): the forecasts
with `outcome` absent. -/
def list_unresolved (s : Store) : List Forecast :=
  s.filter (fun f => f.outcome.isNone)

/-- Modelled from the spec: `aggregate_scored() -> sequence of
(p_home, outcome)` over all forecasts with outcome present (section 4.1). -/
def aggregate_scored (s : Store) : List (ℚ × Bool) :=
  s.filterMap (fun f => f.outcome.map (fun b => (f.p_home, b)))

/-- Modelled from the spec: one forecaster output of an ingestion batch,
`{match_id, sport_key, player_a, player_b, p_home}` (section 4.2). -/
structure RawItem where
  match_id : String
  sport_key : String
  player_a : String
  player_b : String
  p_home : ℚ
deriving DecidableEq, Repr

/-- Modelled from the spec: the `p_home` range validation of section 4.2 /
section 3 — `p_home` must lie in the closed interval [0,1]. -/
def validP (p : ℚ) : Bool := decide (0 ≤ p) && decide (p ≤ 1)

/-- Modelled from the spec: the Forecast record created at ingestion time
(outcome absent, section 3 Lifecycle). -/
def RawItem.toForecast (it : RawItem) (now : ℕ) : Forecast :=
  ⟨it.match_id, it.sport_key, it.player_a, it.player_b, it.p_home, now, none, none⟩

/-- Modelled from the spec: the response of `POST /predict/upcoming`
(section 6): `{sport_key, count, saved, items?, note?}`; matches the
`UpcomingResp` type of src/src/app/page.tsx lines 6-12. -/
structure UpcomingResp where
  sport_key : Option String
  count : ℕ
  saved : ℕ
  items : List RawItem
  note : Option String
deriving DecidableEq, Repr

/-- Modelled from the spec: the per-item loop of the Ingestion Pipeline
(section 4.2): validate `p_home` (skip if invalid, never abort), then
`put_if_absent`; returns the final store, the number actually inserted, and
the echo of accepted items. -/
def ingestItems : Store → List RawItem → ℕ → Store × ℕ × List RawItem
  | s, [], _ => (s, 0, [])
  | s, it :: rest, now =>
    if validP it.p_home then
      let p := put_if_absent s (it.toForecast now)
      let r := ingestItems p.1 rest now
      (r.1, (if p.2 then 1 else 0) + r.2.1, it :: r.2.2)
    else
      ingestItems s rest now

/-- Modelled from the spec: the Ingestion Pipeline (section 4.2): output
`{sport_key, count: number fetched, saved: number actually inserted, items}`,
with the optional `note` annotation of section 6 on an empty fixture list. -/
def ingest (s : Store) (sk : Option String) (batch : List RawItem) (now : ℕ) :
    Store × UpcomingResp :=
  let r := ingestItems s batch now
  (r.1, ⟨sk, batch.length, r.2.1, r.2.2,
    if batch.isEmpty then some "no upcoming matches" else none⟩)

/-- Modelled from the spec: the `GET /metrics` payload
`{count, accuracy: number|null, brier: number|null}` (sections 4.4 and 6);
matches the `Metrics` type of src/unnamed/part_000 line 5. -/
structure Metrics where
  count : ℕ
  accuracy : Option ℚ
  brier : Option ℚ
deriving DecidableEq, Repr

/-- Modelled from the spec: the predicted favorite is home iff
`p_home >= 0.5`; the tie at exactly 0.5 is a predicted-home call
(section 4.4). -/
def predictedHome (p : ℚ) : Bool := decide ((1 : ℚ) / 2 ≤ p)

/-- Modelled from the spec: a scored pair counts toward accuracy when the
predicted favorite matches the realized outcome (section 4.4). -/
def favoriteCorrect (pb : ℚ × Bool) : Bool := predictedHome pb.1 == pb.2

/-- Modelled from the spec: the squared error `(p_home - outcome_as_1_or_0)^2`
of one scored pair (section 4.4). -/
def sqErr (pb : ℚ × Bool) : ℚ := (pb.1 - (if pb.2 then 1 else 0)) ^ 2

/-- Modelled from the spec: the Scoring Engine (section 4.4): `count` of
scored forecasts, `accuracy` and `brier` over them, both null when
`count == 0`. -/
def metrics (s : Store) : Metrics :=
  let scored := aggregate_scored s
  if scored.length = 0 then ⟨0, none, none⟩
  else
    ⟨scored.length,
      some (((scored.filter favoriteCorrect).length : ℚ) / (scored.length : ℚ)),
      some ((scored.map sqErr).sum / (scored.length : ℚ))⟩

/-- Modelled from the spec: the answer of the external result source for one
`match_id` (section 4.3): a lookup failure, a match not yet concluded, or a
definitive winner. -/
inductive LookupResult
  | errored
  | pending
  | winner (w : String)
deriving DecidableEq, Repr

/-- Modelled from the spec: whether a lookup failed (section 4.3 Failure
handling). -/
def LookupResult.isErrored : LookupResult → Bool
  | .errored => true
  | _ => false

/-- Modelled from the spec: whether a lookup returned a definitive result
(section 4.3). -/
def LookupResult.isWinner : LookupResult → Bool
  | .winner _ => true
  | _ => false

/-- Modelled from the spec: the report of one reconciliation run: how many
outcomes were attached and the match_ids whose lookup failed, collected
rather than raised (section 4.3). -/
structure ReconcileReport where
  attached : ℕ
  failures : List String
deriving DecidableEq, Repr

/-- Modelled from the spec: the per-forecast loop of the Outcome Reconciler
(section 4.3): query the source by `match_id`; on a definitive result attach
`outcome = (winner == player_a)`; on a pending match leave untouched; on a
lookup failure collect the failure and continue. -/
def reconcileList : Store → List Forecast → (String → LookupResult) → ℕ →
    Store × ℕ × List String
  | s, [], _, _ => (s, 0, [])
  | s, f :: rest, src, now =>
    match src f.match_id with
    | .errored =>
      let r := reconcileList s rest src now
      (r.1, r.2.1, f.match_id :: r.2.2)
    | .pending => reconcileList s rest src now
    | .winner w =>
      let a := attach_outcome s f.match_id (w == f.player_a) now
      let r := reconcileList a.1 rest src now
      (r.1, (if a.2 then 1 else 0) + r.2.1, r.2.2)

/-- Modelled from the spec: one Outcome Reconciler run (section 4.3):
enumerate `list_unresolved()` and process each forecast. -/
def reconcile (s : Store) (src : String → LookupResult) (now : ℕ) :
    Store × ReconcileReport :=
  let r := reconcileList s (list_unresolved s) src now
  (r.1, ⟨r.2.1, r.2.2⟩)

/-! UI layer, embedded from the visible sources. -/

/-- API base of src/src/app/page.tsx line 4 and src/unnamed/part_000 line 3
(the `NEXT_PUBLIC_API_BASE` fallback). -/
def apiBase : String := "http://127.0.0.1:8000"

/-- An HTTP request issued by the dashboard. -/
structure HttpRequest where
  method : String
  url : String
deriving DecidableEq, Repr

/-- The requests issued by one call of `runUpcoming`
(src/src/app/page.tsx lines 19-30): a single POST to
`/predict/upcoming?regions=eu`. -/
def runUpcoming_requests : List HttpRequest :=
  [⟨"POST", apiBase ++ "/predict/upcoming?regions=eu"⟩]

/-- The user-visible triggers of the Home page: the mount effect
(src/src/app/page.tsx line 32, `useEffect` with empty dependency list, which
runs its body once per mount) and the button click (line 39). -/
inductive HomeEvent
  | mount
  | clickRunButton
deriving DecidableEq, Repr

/-- The requests each Home-page trigger issues: both the mount effect and the
button's onClick call `runUpcoming` once (src/src/app/page.tsx lines 32 and
39). -/
def homeEventRequests : HomeEvent → List HttpRequest
  | .mount => runUpcoming_requests
  | .clickRunButton => runUpcoming_requests

/-- What a metric cell of the MetricsPage renders: the literal dash or
`toFixed(3)` applied to a number (src/unnamed/part_000 lines 33 and 37). -/
inductive Rendered
  | dash
  | fixed3 (x : ℚ)
deriving DecidableEq, Repr

/-- The ternary `m === null ? "-" : m.toFixed(3)` of src/unnamed/part_000
lines 33 and 37, applied to the accuracy and brier fields. -/
def renderMetric : Option ℚ → Rendered
  | none => .dash
  | some x => .fixed3 x

/-! Helper lemmas about the store operations. -/

theorem Store.get_cons (f : Forecast) (rest : Store) (mid : String) :
    Store.get (f :: rest) mid =
      if f.match_id == mid then some f else Store.get rest mid := by
  cases hb : f.match_id == mid <;> simp [Store.get, List.find?, hb]

theorem attach_outcome_get_none (s : Store) (mid : String) (oc : Bool) (now : ℕ)
    (h : s.get mid = none) : attach_outcome s mid oc now = (s, false) := by
  induction s with
  | nil => rfl
  | cons f rest ih =>
    rw [Store.get_cons] at h
    cases hb : f.match_id == mid with
    | true => simp [hb] at h
    | false =>
      simp only [hb, if_false] at h
      simp [attach_outcome, hb, ih h]

theorem attach_outcome_get_resolved (s : Store) (mid : String) (oc b : Bool) (now : ℕ)
    (f : Forecast) (hget : s.get mid = some f) (hout : f.outcome = some b) :
    attach_outcome s mid oc now = (s, false) := by
  induction s with
  | nil => simp [Store.get] at hget
  | cons g rest ih =>
    rw [Store.get_cons] at hget
    cases hb : g.match_id == mid with
    | true =>
      simp only [hb, if_true] at hget
      cases hget
      simp [attach_outcome, hb, hout]
    | false =>
      simp only [hb, if_false] at hget
      simp [attach_outcome, hb, ih hget]

theorem attach_outcome_get_unresolved (s : Store) (mid : String) (oc : Bool) (now : ℕ)
    (f : Forecast) (hget : s.get mid = some f) (hout : f.outcome = none) :
    (attach_outcome s mid oc now).2 = true ∧
    (attach_outcome s mid oc now).1.get mid =
      some { f with outcome := some oc, scored_at := some now } := by
  induction s with
  | nil => simp [Store.get] at hget
  | cons g rest ih =>
    rw [Store.get_cons] at hget
    cases hb : g.match_id == mid with
    | true =>
      simp only [hb, if_true] at hget
      cases hget
      refine ⟨by simp [attach_outcome, hb, hout], ?_⟩
      simp [attach_outcome, hb, hout, Store.get_cons]
    | false =>
      simp only [hb, if_false] at hget
      have h := ih hget
      refine ⟨?_, ?_⟩
      · simpa [attach_outcome, hb] using h.1
      · simpa [attach_outcome, hb, Store.get_cons] using h.2

theorem attach_outcome_get_other (s : Store) (mid mid' : String) (oc : Bool) (now : ℕ)
    (h : (mid == mid') = false) :
    (attach_outcome s mid oc now).1.get mid' = s.get mid' := by
  induction s with
  | nil => rfl
  | cons g rest ih =>
    cases hb : g.match_id == mid with
    | true =>
      have hbm : g.match_id = mid := beq_iff_eq.mp hb
      have hb' : (g.match_id == mid') = false := by rw [hbm]; exact h
      cases hout : g.outcome <;>
        simp [attach_outcome, hb, hout, Store.get_cons, hb']
    | false =>
      cases hb' : g.match_id == mid' <;>
        simp [attach_outcome, hb, Store.get_cons, hb', ih]

theorem attach_outcome_false_store_eq (s : Store) (mid : String) (oc : Bool) (now : ℕ)
    (h : (attach_outcome s mid oc now).2 = false) :
    (attach_outcome s mid oc now).1 = s := by
  cases hget : s.get mid with
  | none => rw [attach_outcome_get_none s mid oc now hget]
  | some f =>
    cases hout : f.outcome with
    | none => rw [(attach_outcome_get_unresolved s mid oc now f hget hout).1] at h; cases h
    | some b => rw [attach_outcome_get_resolved s mid oc b now f hget hout]

theorem Store.get_append (s t : Store) (mid : String) :
    Store.get (s ++ t) mid = (Store.get s mid).or (Store.get t mid) := by
  simp [Store.get, List.find?_append]

theorem put_if_absent_present (s : Store) (f : Forecast)
    (h : (s.get f.match_id).isSome) : put_if_absent s f = (s, false) := by
  simp [put_if_absent, h]

theorem put_if_absent_absent (s : Store) (f : Forecast)
    (h : s.get f.match_id = none) : put_if_absent s f = (s ++ [f], true) := by
  simp [put_if_absent, h]

theorem put_if_absent_get_isSome (s : Store) (f : Forecast) (mid : String)
    (h : (s.get mid).isSome) : (((put_if_absent s f).1).get mid).isSome := by
  unfold put_if_absent
  split
  · exact h
  · rw [Store.get_append]
    rcases Option.isSome_iff_exists.mp h with ⟨g, hg⟩
    simp [hg]

theorem put_if_absent_get_self_isSome (s : Store) (f : Forecast) :
    (((put_if_absent s f).1).get f.match_id).isSome := by
  unfold put_if_absent
  split <;> rename_i h
  · exact h
  · rw [Store.get_append]
    cases hg : s.get f.match_id with
    | some g => simp [hg]
    | none => simp [hg, Store.get_cons, Store.get]

theorem ingestItems_get_mono (batch : List RawItem) (s : Store) (now : ℕ) (mid : String)
    (h : (s.get mid).isSome) : (((ingestItems s batch now).1).get mid).isSome := by
  induction batch generalizing s with
  | nil => exact h
  | cons it rest ih =>
    cases hv : validP it.p_home with
    | false => simpa [ingestItems, hv] using ih s h
    | true =>
      simpa [ingestItems, hv] using
        ih (put_if_absent s (it.toForecast now)).1 (put_if_absent_get_isSome s _ mid h)

theorem ingestItems_reingest (batch : List RawItem) (s : Store) (now now' : ℕ) :
    ingestItems (ingestItems s batch now).1 batch now' =
      ((ingestItems s batch now).1, 0, (ingestItems s batch now).2.2) := by
  induction batch generalizing s with
  | nil => rfl
  | cons it rest ih =>
    cases hv : validP it.p_home with
    | false => simpa [ingestItems, hv] using ih s
    | true =>
      have hkey : (((ingestItems (put_if_absent s (it.toForecast now)).1 rest now).1).get
          it.match_id).isSome := by
        apply ingestItems_get_mono
        exact put_if_absent_get_self_isSome s (it.toForecast now)
      have hput : put_if_absent (ingestItems (put_if_absent s (it.toForecast now)).1 rest now).1
          (it.toForecast now') =
          ((ingestItems (put_if_absent s (it.toForecast now)).1 rest now).1, false) :=
        put_if_absent_present _ _ hkey
      simp [ingestItems, hv, hput, ih]

theorem ingestItems_skip_invalid (pre : List RawItem) (s : Store) (post : List RawItem)
    (x : RawItem) (now : ℕ) (hx : validP x.p_home = false) :
    ingestItems s (pre ++ x :: post) now = ingestItems s (pre ++ post) now := by
  induction pre generalizing s with
  | nil => simp [ingestItems, hx]
  | cons a pre ih =>
    cases hv : validP a.p_home <;> simp [ingestItems, hv, ih]

theorem get_of_mem_nodup (s : Store) (f : Forecast)
    (hnd : (s.map (fun g => g.match_id)).Nodup) (hf : f ∈ s) :
    s.get f.match_id = some f := by
  induction s with
  | nil => cases hf
  | cons g rest ih =>
    rcases List.mem_cons.mp hf with hf | hf
    · subst hf
      simp [Store.get_cons]
    · have hnd' : (∀ x ∈ rest, ¬x.match_id = g.match_id) ∧
          (rest.map (fun g => g.match_id)).Nodup := by simpa using hnd
      have hne : (g.match_id == f.match_id) = false :=
        beq_eq_false_iff_ne.mpr (fun hc => hnd'.1 f hf hc.symm)
      rw [Store.get_cons, hne, if_neg (by simp)]
      exact ih hnd'.2 hf

theorem reconcileList_failures (pend : List Forecast) (s : Store)
    (src : String → LookupResult) (now : ℕ) :
    (reconcileList s pend src now).2.2 =
      (pend.filter (fun f => (src f.match_id).isErrored)).map (fun f => f.match_id) := by
  induction pend generalizing s with
  | nil => rfl
  | cons f rest ih =>
    cases hsrc : src f.match_id <;>
      simp [reconcileList, hsrc, LookupResult.isErrored, ih]

theorem reconcileList_get_other (pend : List Forecast) (s : Store)
    (src : String → LookupResult) (now : ℕ) (mid : String)
    (h : ∀ f ∈ pend, (f.match_id == mid) = false) :
    ((reconcileList s pend src now).1).get mid = s.get mid := by
  induction pend generalizing s with
  | nil => rfl
  | cons f rest ih =>
    have hrest : ∀ g ∈ rest, (g.match_id == mid) = false :=
      fun g hg => h g (List.mem_cons.mpr (Or.inr hg))
    cases hsrc : src f.match_id with
    | errored => simpa [reconcileList, hsrc] using ih s hrest
    | pending => simpa [reconcileList, hsrc] using ih s hrest
    | winner w =>
      have hhead := h f (List.mem_cons.mpr (Or.inl rfl))
      simp only [reconcileList, hsrc]
      rw [ih _ hrest]
      exact attach_outcome_get_other s f.match_id mid (w == f.player_a) now hhead

theorem reconcileList_attaches (pend : List Forecast) (s : Store)
    (src : String → LookupResult) (now : ℕ)
    (hnd : (pend.map (fun f => f.match_id)).Nodup)
    (hin : ∀ f ∈ pend, s.get f.match_id = some f ∧ f.outcome = none) :
    ∀ f ∈ pend, ∀ w, src f.match_id = .winner w →
      ((reconcileList s pend src now).1).get f.match_id =
        some { f with outcome := some (w == f.player_a), scored_at := some now } := by
  induction pend generalizing s with
  | nil => intro f hf; cases hf
  | cons g rest ih =>
    have hnd' : (∀ x ∈ rest, ¬x.match_id = g.match_id) ∧
        (rest.map (fun f => f.match_id)).Nodup := by simpa using hnd
    intro f hf w hw
    rcases List.mem_cons.mp hf with hf | hf
    · subst hf
      have hg := hin f (List.mem_cons.mpr (Or.inl rfl))
      have hatt := attach_outcome_get_unresolved s f.match_id (w == f.player_a) now f hg.1 hg.2
      simp only [reconcileList, hw]
      have hothers : ∀ g' ∈ rest, (g'.match_id == f.match_id) = false :=
        fun g' hg' => beq_eq_false_iff_ne.mpr (hnd'.1 g' hg')
      rw [reconcileList_get_other rest _ src now f.match_id hothers]
      exact hatt.2
    · cases hsrc : src g.match_id with
      | errored =>
        simp only [reconcileList, hsrc]
        exact ih s hnd'.2 (fun f' hf' => hin f' (List.mem_cons.mpr (Or.inr hf'))) f hf w hw
      | pending =>
        simp only [reconcileList, hsrc]
        exact ih s hnd'.2 (fun f' hf' => hin f' (List.mem_cons.mpr (Or.inr hf'))) f hf w hw
      | winner w' =>
        simp only [reconcileList, hsrc]
        refine ih _ hnd'.2 (fun f' hf' => ?_) f hf w hw
        have hne : (g.match_id == f'.match_id) = false :=
          beq_eq_false_iff_ne.mpr (fun hc => hnd'.1 f' hf' hc.symm)
        have hprev := hin f' (List.mem_cons.mpr (Or.inr hf'))
        exact ⟨by
          rw [attach_outcome_get_other s g.match_id f'.match_id (w' == g.player_a) now hne]
          exact hprev.1, hprev.2⟩

theorem sqErr_bound (pb : ℚ × Bool) (h0 : 0 ≤ pb.1) (h1 : pb.1 ≤ 1) :
    0 ≤ sqErr pb ∧ sqErr pb ≤ 1 := by
  obtain ⟨p, o⟩ := pb
  simp only at h0 h1
  cases o
  · have h : sqErr (p, false) = p ^ 2 := by simp [sqErr]
    rw [h]
    exact ⟨sq_nonneg p, by nlinarith⟩
  · have h : sqErr (p, true) = (p - 1) ^ 2 := by simp [sqErr]
    rw [h]
    exact ⟨sq_nonneg _, by nlinarith⟩

theorem sum_sqErr_bounds (l : List (ℚ × Bool))
    (hp : ∀ pb ∈ l, 0 ≤ pb.1 ∧ pb.1 ≤ 1) :
    0 ≤ (l.map sqErr).sum ∧ (l.map sqErr).sum ≤ (l.length : ℚ) := by
  induction l with
  | nil => simp
  | cons a l ih =>
    have ha := hp a (List.mem_cons.mpr (Or.inl rfl))
    have hb := sqErr_bound a ha.1 ha.2
    have ih' := ih (fun pb h => hp pb (List.mem_cons.mpr (Or.inr h)))
    simp only [List.map_cons, List.sum_cons, List.length_cons]
    push_cast
    constructor <;> linarith [ih'.1, ih'.2, hb.1, hb.2]

/-! Concrete demonstration data (the spec's section 8 scenarios). -/

/-- The scored store of the spec's concrete scoring scenario:
p_home 0.9 / outcome home, 0.3 / home, 0.5 / away. -/
def demoScored : Store :=
  [⟨"m1", "tennis", "A1", "B1", 9/10, 0, some true, some 1⟩,
   ⟨"m2", "tennis", "A2", "B2", 3/10, 0, some true, some 1⟩,
   ⟨"m3", "tennis", "A3", "B3", 1/2, 0, some false, some 1⟩]

/-- A valid forecaster output used in concrete instances. -/
def demoItem : RawItem := ⟨"m1", "tennis", "A1", "B1", 1⟩

/-- A forecaster output whose p_home lies outside the closed interval
[0,1]. -/
def badItem : RawItem := ⟨"mx", "tennis", "AX", "BX", 2⟩

/-- A one-record store whose forecast is still unresolved. -/
def demoUnresolved : Store := [⟨"m1", "tennis", "A1", "B1", 1, 0, none, none⟩]

/-- Ten unresolved forecasts, for the reconciliation scenario of the spec's
section 8. -/
def demo10 : Store :=
  [⟨"m1", "tennis", "HOME", "B1", 1, 0, none, none⟩,
   ⟨"m2", "tennis", "HOME", "B2", 1, 0, none, none⟩,
   ⟨"m3", "tennis", "HOME", "B3", 1, 0, none, none⟩,
   ⟨"m4", "tennis", "HOME", "B4", 1, 0, none, none⟩,
   ⟨"m5", "tennis", "HOME", "B5", 1, 0, none, none⟩,
   ⟨"m6", "tennis", "HOME", "B6", 1, 0, none, none⟩,
   ⟨"m7", "tennis", "HOME", "B7", 1, 0, none, none⟩,
   ⟨"m8", "tennis", "HOME", "B8", 1, 0, none, none⟩,
   ⟨"m9", "tennis", "HOME", "B9", 1, 0, none, none⟩,
   ⟨"m10", "tennis", "HOME", "B10", 1, 0, none, none⟩]

/-- A result source that errors on match m5 and reports a definitive home
winner everywhere else. -/
def demoSrc (mid : String) : LookupResult :=
  if mid == "m5" then .errored else .winner "HOME"

/-- The scoring scenario of the spec's section 8 evaluated on the model:
count 3, accuracy 1/3, brier 1/4. -/
theorem metrics_demoScored : metrics demoScored = ⟨3, some (1/3), some (1/4)⟩ := by
  norm_num [metrics, aggregate_scored, demoScored, favoriteCorrect, predictedHome, sqErr,
    List.filterMap, List.filter]

/-! The claims. -/

/-- C1: Ingestion is idempotent per match key: ingesting a valid forecast
whose match_id is absent from the store reports saved=1 and stores it; any
later ingestion attempt with the same match_id reports saved=0 and leaves
the stored state (in particular the record's p_home and outcome)
unchanged. -/
theorem ingest_idempotent_per_key (s : Store) (sk sk' : Option String)
    (it it' : RawItem) (now now' : ℕ)
    (hv : validP it.p_home = true) (habs : s.get it.match_id = none) :
    (ingest s sk [it] now).2.saved = 1 ∧
    (ingest s sk [it] now).1.get it.match_id = some (it.toForecast now) ∧
    (∀ t : Store, it'.match_id = it.match_id → (t.get it.match_id).isSome →
      (ingest t sk' [it'] now').2.saved = 0 ∧ (ingest t sk' [it'] now').1 = t) := by
  have hput : put_if_absent s (it.toForecast now) = (s ++ [it.toForecast now], true) :=
    put_if_absent_absent s (it.toForecast now) habs
  refine ⟨?_, ?_, ?_⟩
  · simp [ingest, ingestItems, hv, hput]
  · have hstore : (ingest s sk [it] now).1 = s ++ [it.toForecast now] := by
      simp [ingest, ingestItems, hv, hput]
    rw [hstore, Store.get_append, habs]
    simp [Store.get_cons, Store.get, RawItem.toForecast]
  · intro t hsame hpres
    cases hv' : validP it'.p_home with
    | true =>
      have hput' : put_if_absent t (it'.toForecast now') = (t, false) := by
        apply put_if_absent_present
        show (t.get it'.match_id).isSome
        rw [hsame]
        exact hpres
      constructor <;> simp [ingest, ingestItems, hv', hput']
    | false => constructor <;> simp [ingest, ingestItems, hv']

/-- C1 witness: the idempotence theorem at a concrete one-item batch. -/
theorem ingest_idempotent_per_key_witness :
    (ingest [] (some "tennis") [demoItem] 0).2.saved = 1 ∧
    (ingest (ingest [] (some "tennis") [demoItem] 0).1 (some "tennis") [demoItem] 1).2.saved = 0 ∧
    (ingest (ingest [] (some "tennis") [demoItem] 0).1 (some "tennis") [demoItem] 1).1 =
      (ingest [] (some "tennis") [demoItem] 0).1 := by
  have h := ingest_idempotent_per_key [] (some "tennis") (some "tennis") demoItem demoItem 0 1
    (by decide) rfl
  have h2 := h.2.2 (ingest [] (some "tennis") [demoItem] 0).1 rfl (by decide)
  exact ⟨h.1, h2.1, h2.2⟩

/-- C2: a forecast's outcome transitions from absent to present at most
once: attach_outcome reports updated=true exactly when the match is present
and unresolved, a false report changes no state, a successful attach sets
outcome and scored_at, and any subsequent call for the same match_id (same
or different outcome value, or an unknown match_id) reports updated=false
and changes nothing. -/
theorem attach_outcome_once (s : Store) (mid : String) (oc oc' : Bool) (now now' : ℕ) :
    ((attach_outcome s mid oc now).2 = true ↔
      ∃ f, s.get mid = some f ∧ f.outcome = none) ∧
    ((attach_outcome s mid oc now).2 = false → (attach_outcome s mid oc now).1 = s) ∧
    (∀ f, s.get mid = some f → f.outcome = none →
      (attach_outcome s mid oc now).1.get mid =
        some { f with outcome := some oc, scored_at := some now }) ∧
    attach_outcome (attach_outcome s mid oc now).1 mid oc' now' =
      ((attach_outcome s mid oc now).1, false) := by
  refine ⟨⟨?_, ?_⟩, attach_outcome_false_store_eq s mid oc now, ?_, ?_⟩
  · intro h
    cases hget : s.get mid with
    | none => rw [attach_outcome_get_none s mid oc now hget] at h; cases h
    | some f =>
      cases hout : f.outcome with
      | none => exact ⟨f, by simp [hget], hout⟩
      | some b => rw [attach_outcome_get_resolved s mid oc b now f hget hout] at h; cases h
  · rintro ⟨f, hget, hout⟩
    exact (attach_outcome_get_unresolved s mid oc now f hget hout).1
  · intro f hget hout
    exact (attach_outcome_get_unresolved s mid oc now f hget hout).2
  · cases hget : s.get mid with
    | none =>
      rw [attach_outcome_get_none s mid oc now hget]
      exact attach_outcome_get_none s mid oc' now' hget
    | some f =>
      cases hout : f.outcome with
      | some b =>
        rw [attach_outcome_get_resolved s mid oc b now f hget hout]
        exact attach_outcome_get_resolved s mid oc' b now' f hget hout
      | none =>
        have h := attach_outcome_get_unresolved s mid oc now f hget hout
        exact attach_outcome_get_resolved _ mid oc' oc now' _ h.2 rfl

/-- C2 witness: attach once succeeds, the record is resolved, and a second
attach with a different outcome value is a reported no-op. -/
theorem attach_outcome_once_witness :
    (attach_outcome demoUnresolved "m1" true 5).2 = true ∧
    (attach_outcome demoUnresolved "m1" true 5).1.get "m1" =
      some ⟨"m1", "tennis", "A1", "B1", 1, 0, some true, some 5⟩ ∧
    attach_outcome (attach_outcome demoUnresolved "m1" true 5).1 "m1" false 6 =
      ((attach_outcome demoUnresolved "m1" true 5).1, false) := by
  have h := attach_outcome_once demoUnresolved "m1" true false 5 6
  refine ⟨h.1.mpr ⟨⟨"m1", "tennis", "A1", "B1", 1, 0, none, none⟩, by decide, rfl⟩, ?_, h.2.2.2⟩
  exact h.2.2.1 ⟨"m1", "tennis", "A1", "B1", 1, 0, none, none⟩ (by decide) rfl

/-- C3: an item whose p_home lies outside [0,1] is rejected: the batch
behaves exactly as if the item were not there — same final store (so the
item is never stored), same saved count, same items echo — while the count
of fetched items still includes it; the batch is never aborted. -/
theorem invalid_item_rejected (s : Store) (sk : Option String)
    (pre post : List RawItem) (x : RawItem) (now : ℕ)
    (hx : x.p_home < 0 ∨ 1 < x.p_home) :
    (ingest s sk (pre ++ x :: post) now).1 = (ingest s sk (pre ++ post) now).1 ∧
    (ingest s sk (pre ++ x :: post) now).2.saved = (ingest s sk (pre ++ post) now).2.saved ∧
    (ingest s sk (pre ++ x :: post) now).2.items = (ingest s sk (pre ++ post) now).2.items ∧
    (ingest s sk (pre ++ x :: post) now).2.count =
      (ingest s sk (pre ++ post) now).2.count + 1 := by
  have hx' : validP x.p_home = false := by
    rcases hx with h | h
    · have hd : decide (0 ≤ x.p_home) = false := decide_eq_false (not_le.mpr h)
      simp [validP, hd]
    · have hd : decide (x.p_home ≤ 1) = false := decide_eq_false (not_le.mpr h)
      simp [validP, hd]
  have h := ingestItems_skip_invalid pre s post x now hx'
  refine ⟨by simp [ingest, h], by simp [ingest, h], by simp [ingest, h], ?_⟩
  simp [ingest, List.length_append]
  omega

/-- C3 witness: the rejection theorem on the batch [demoItem, badItem]. -/
theorem invalid_item_rejected_witness :
    (ingest [] (some "t") ([demoItem] ++ badItem :: []) 0).1 =
      (ingest [] (some "t") ([demoItem] ++ []) 0).1 ∧
    (ingest [] (some "t") ([demoItem] ++ badItem :: []) 0).2.saved =
      (ingest [] (some "t") ([demoItem] ++ []) 0).2.saved ∧
    (ingest [] (some "t") ([demoItem] ++ badItem :: []) 0).2.items =
      (ingest [] (some "t") ([demoItem] ++ []) 0).2.items ∧
    (ingest [] (some "t") ([demoItem] ++ badItem :: []) 0).2.count =
      (ingest [] (some "t") ([demoItem] ++ []) 0).2.count + 1 :=
  invalid_item_rejected [] (some "t") [demoItem] [] badItem 0 (Or.inr (by norm_num [badItem]))

/-- C4: when the set of scored forecasts is empty (count = 0), the Scoring
Engine reports accuracy = null and brier = null, never a default numeric
value. -/
theorem metrics_empty_null (s : Store) (h : (metrics s).count = 0) :
    (metrics s).accuracy = none ∧ (metrics s).brier = none := by
  by_cases hn : (aggregate_scored s).length = 0
  · simp [metrics, hn]
  · exfalso
    apply hn
    simp [metrics, hn] at h

/-- C4 witness: the empty store has count 0 and null metrics. -/
theorem metrics_empty_null_witness :
    (metrics ([] : Store)).accuracy = none ∧ (metrics ([] : Store)).brier = none :=
  metrics_empty_null [] rfl

/-- C5: for a non-empty scored set, accuracy is the fraction of forecasts
whose predicted favorite (home iff p_home >= 0.5, the tie at 0.5 counting
as a predicted-home call) matches the realized outcome; on the spec's
concrete three-forecast set the count is 3 and the accuracy is 1/3. -/
theorem accuracy_favorite_fraction (s : Store) (h : aggregate_scored s ≠ []) :
    (∀ p o, favoriteCorrect (p, o) = true ↔ ((1 : ℚ) / 2 ≤ p ↔ o = true)) ∧
    (metrics s).count = (aggregate_scored s).length ∧
    (metrics s).accuracy =
      some ((((aggregate_scored s).filter favoriteCorrect).length : ℚ) /
        ((aggregate_scored s).length : ℚ)) ∧
    (metrics demoScored).count = 3 ∧
    (metrics demoScored).accuracy = some (1/3) := by
  have hn : ¬(aggregate_scored s).length = 0 :=
    fun hh => h (List.eq_nil_of_length_eq_zero hh)
  refine ⟨?_, by simp [metrics, hn], by simp [metrics, hn], ?_, ?_⟩
  · intro p o
    cases o <;> simp [favoriteCorrect, predictedHome]
  · rw [metrics_demoScored]
  · rw [metrics_demoScored]

/-- C5 witness: the accuracy theorem applied at the spec's concrete scored
set. -/
theorem accuracy_favorite_fraction_witness :
    (metrics demoScored).count = 3 ∧ (metrics demoScored).accuracy = some (1/3) := by
  have h := accuracy_favorite_fraction demoScored (by
    simp [aggregate_scored, demoScored])
  exact ⟨h.2.2.2.1, h.2.2.2.2⟩

/-- C6: for a non-empty scored set, brier is the mean of
(p_home - outcome_as_1_or_0)^2 over the set; given every scored p_home lies
in [0,1] the value lies in [0,1]; on the spec's concrete three-forecast set
it is exactly 1/4. -/
theorem brier_mean_square (s : Store) (h : aggregate_scored s ≠ [])
    (hp : ∀ pb ∈ aggregate_scored s, 0 ≤ pb.1 ∧ pb.1 ≤ 1) :
    (metrics s).brier =
      some (((aggregate_scored s).map sqErr).sum / ((aggregate_scored s).length : ℚ)) ∧
    (∀ b, (metrics s).brier = some b → 0 ≤ b ∧ b ≤ 1) ∧
    (metrics demoScored).brier = some (1/4) := by
  have hn : ¬(aggregate_scored s).length = 0 :=
    fun hh => h (List.eq_nil_of_length_eq_zero hh)
  have hpos : (0 : ℚ) < ((aggregate_scored s).length : ℚ) := by
    exact_mod_cast Nat.pos_of_ne_zero hn
  refine ⟨by simp [metrics, hn], ?_, by rw [metrics_demoScored]⟩
  intro b hb
  have hb' : (metrics s).brier =
      some (((aggregate_scored s).map sqErr).sum / ((aggregate_scored s).length : ℚ)) := by
    simp [metrics, hn]
  rw [hb'] at hb
  cases hb
  have hbounds := sum_sqErr_bounds (aggregate_scored s) hp
  constructor
  · exact div_nonneg hbounds.1 (le_of_lt hpos)
  · rw [div_le_one hpos]
    exact hbounds.2

/-- C6 witness: the brier theorem applied at the spec's concrete scored
set, together with the [0,1] bound it yields there. -/
theorem brier_mean_square_witness :
    (metrics demoScored).brier = some (1/4) ∧ (0 : ℚ) ≤ 1/4 ∧ (1 : ℚ)/4 ≤ 1 := by
  have hagg : aggregate_scored demoScored =
      [(9/10, true), (3/10, true), (1/2, false)] := rfl
  have h := brier_mean_square demoScored
    (by simp [hagg])
    (by
      intro pb hpb
      rw [hagg] at hpb
      rcases List.mem_cons.mp hpb with h1 | hpb
      · rw [h1]; constructor <;> norm_num
      rcases List.mem_cons.mp hpb with h1 | hpb
      · rw [h1]; constructor <;> norm_num
      rcases List.mem_cons.mp hpb with h1 | hpb
      · rw [h1]; constructor <;> norm_num
      · cases hpb)
  exact ⟨h.2.2, h.2.1 (1/4) h.2.2⟩

/-- C7: a result-source lookup failure for one match does not abort a
reconciliation run: the failures are exactly the errored unresolved
match_ids, collected and reported, while every other unresolved forecast
with a definitive result still gets its outcome attached; in the spec's
ten-forecast scenario with one erroring match, nine outcomes are attached
and exactly one failure is reported. -/
theorem reconcile_partial_failure (s : Store) (src : String → LookupResult) (now : ℕ)
    (hnd : (s.map (fun f => f.match_id)).Nodup) :
    (reconcile s src now).2.failures =
      ((list_unresolved s).filter (fun f => (src f.match_id).isErrored)).map
        (fun f => f.match_id) ∧
    (∀ f ∈ list_unresolved s, ∀ w, src f.match_id = .winner w →
      ((reconcile s src now).1).get f.match_id =
        some { f with outcome := some (w == f.player_a), scored_at := some now }) ∧
    (reconcile demo10 demoSrc 7).2.attached = 9 ∧
    (reconcile demo10 demoSrc 7).2.failures = ["m5"] := by
  refine ⟨reconcileList_failures (list_unresolved s) s src now, ?_, by decide, by decide⟩
  have hsub : ((list_unresolved s).map (fun f => f.match_id)).Sublist
      (s.map (fun f => f.match_id)) :=
    List.Sublist.map (fun f => f.match_id) (List.filter_sublist s)
  have hndu : ((list_unresolved s).map (fun f => f.match_id)).Nodup := hnd.sublist hsub
  intro f hf w hw
  have hin : ∀ g ∈ list_unresolved s, s.get g.match_id = some g ∧ g.outcome = none := by
    intro g hg
    have hg' := List.mem_filter.mp hg
    exact ⟨get_of_mem_nodup s g hnd hg'.1, Option.isNone_iff_eq_none.mp hg'.2⟩
  exact reconcileList_attaches (list_unresolved s) s src now hndu hin f hf w hw

/-- C7 witness: the reconciliation theorem on the ten-forecast store with
the source erroring on m5: nine attached, one collected failure, and m3's
outcome is attached. -/
theorem reconcile_partial_failure_witness :
    (reconcile demo10 demoSrc 7).2.attached = 9 ∧
    (reconcile demo10 demoSrc 7).2.failures = ["m5"] ∧
    ((reconcile demo10 demoSrc 7).1).get "m3" =
      some ⟨"m3", "tennis", "HOME", "B3", 1, 0, some true, some 7⟩ := by
  have h := reconcile_partial_failure demo10 demoSrc 7 (by decide)
  refine ⟨h.2.2.1, h.2.2.2, ?_⟩
  have hm3 := h.2.1 ⟨"m3", "tennis", "HOME", "B3", 1, 0, none, none⟩ (by decide) "HOME"
    (by decide)
  simpa using hm3

/-- C8: an empty upstream fixture list is not an error: ingestion returns a
well-formed response with count=0, saved=0 and an untouched store; and
whenever the optional note annotation is present, the numeric fields count
and saved are still present and correct (note never replaces them). -/
theorem empty_batch_ok (s : Store) (sk : Option String) (now : ℕ) :
    ingest s sk [] now = (s, ⟨sk, 0, 0, [], some "no upcoming matches"⟩) ∧
    (∀ batch : List RawItem, ((ingest s sk batch now).2.note).isSome →
      (ingest s sk batch now).2.count = batch.length ∧
      (ingest s sk batch now).2.saved = 0) := by
  refine ⟨rfl, ?_⟩
  intro batch hnote
  cases batch with
  | nil => exact ⟨rfl, rfl⟩
  | cons a l => simp [ingest] at hnote

/-- C8 witness: the empty-batch theorem at a concrete store. -/
theorem empty_batch_ok_witness :
    ingest [] (some "tennis") [] 0 =
      ([], ⟨some "tennis", 0, 0, [], some "no upcoming matches"⟩) ∧
    (ingest [] (some "tennis") [] 0).2.count = 0 ∧
    (ingest [] (some "tennis") [] 0).2.saved = 0 := by
  have h := empty_batch_ok [] (some "tennis") 0
  have h2 := h.2 [] (by decide)
  exact ⟨h.1, h2.1, h2.2⟩

/-- C9: every mount of the dashboard Home page automatically issues exactly
one POST request to /predict/upcoming?regions=eu (the mount effect calls
runUpcoming once), and re-running the triggered ingestion on the same batch
leaves the store unchanged with saved=0, so duplicate-storage safety rests
on ingestion idempotence rather than on the UI avoiding repeat calls. -/
theorem mount_single_post :
    homeEventRequests HomeEvent.mount =
      [⟨"POST", "http://127.0.0.1:8000/predict/upcoming?regions=eu"⟩] ∧
    (homeEventRequests HomeEvent.mount).length = 1 ∧
    (∀ (s : Store) (sk sk' : Option String) (batch : List RawItem) (now now' : ℕ),
      (ingest (ingest s sk batch now).1 sk' batch now').1 = (ingest s sk batch now).1 ∧
      (ingest (ingest s sk batch now).1 sk' batch now').2.saved = 0) := by
  refine ⟨rfl, rfl, ?_⟩
  intro s sk sk' batch now now'
  have h := ingestItems_reingest batch s now now'
  constructor <;> simp [ingest, h]

/-- C10: the MetricsPage never applies numeric formatting to an absent
metric: it renders the literal dash exactly when the fetched accuracy
(respectively brier) is null, and applies toFixed(3) exactly to the non-null
values. -/
theorem metrics_render_null_safe (d : Metrics) :
    (renderMetric d.accuracy = Rendered.dash ↔ d.accuracy = none) ∧
    (∀ x, renderMetric d.accuracy = Rendered.fixed3 x ↔ d.accuracy = some x) ∧
    (renderMetric d.brier = Rendered.dash ↔ d.brier = none) ∧
    (∀ x, renderMetric d.brier = Rendered.fixed3 x ↔ d.brier = some x) := by
  have key : ∀ m : Option ℚ, (renderMetric m = Rendered.dash ↔ m = none) ∧
      (∀ x, renderMetric m = Rendered.fixed3 x ↔ m = some x) := by
    intro m
    cases m <;> simp [renderMetric]
  exact ⟨(key d.accuracy).1, (key d.accuracy).2, (key d.brier).1, (key d.brier).2⟩

end TennisPrediction
